import Mathlib

/-!
Verification development for the RAPID fault-injection log pipeline.

The definitions below are a shallow embedding of the Python sources:
* `src/rapid/analyzer.py` — the aggregation engine (SQL counting queries are
  embedded as `List.countP` over an abstract per-test record carrying exactly
  the columns the queries touch);
* `src/rapid/parser.py`  — the log tokenizer, event extractor / status
  builder, reconciliation, and result-file writer.
-/

namespace Rapid

/-! ## Analyzer-side data model

A row of the test database, as seen by the counting queries of
`ResultsAnalyzer`.  The `status` table always has a row per test (the
importer always inserts one), but its `class` and `SDC` columns are NULL
when the parsed status dict was empty; `stat = none` models that case, so
that SQL conditions such as `s.SDC = 0` are false for those rows, exactly
as NULL comparisons are in SQLite.  Event-table membership is one boolean
per kind (at most one event of each kind per record). -/

inductive StClass where
  | passed
  | failed
  | outlier
deriving DecidableEq, Repr

structure TRec where
  stat : Option (StClass × Bool)
  trap : Bool
  halt : Bool
  comm : Bool
  execf : Bool
  hwReset : Bool
  manual : Bool
deriving DecidableEq, Repr

/-- SQL condition `s.class = c` (false when the class column is NULL). -/
def isClass (c : StClass) (r : TRec) : Bool :=
  match r.stat with
  | some (c2, _) => c2 = c
  | none => false

/-- SQL condition `s.SDC = 1` (false when the SDC column is NULL). -/
def sdc1 (r : TRec) : Bool :=
  match r.stat with
  | some (_, s) => s
  | none => false

/-- SQL condition `s.SDC = 0` (false when the SDC column is NULL). -/
def sdc0 (r : TRec) : Bool :=
  match r.stat with
  | some (_, s) => !s
  | none => false

/-! ### Queries of `_print_strict_failures_table` and `_get_special_cases` -/

/-- `_get_special_cases` clean-pass query: class passed, SDC = 0, and no
trap/halt/comm_failure/hw_reset row (note: `exec_failure` is not excluded,
and `needs_manual_check` is not consulted). -/
def cleanPassedP (r : TRec) : Bool :=
  isClass .passed r && sdc0 r && !r.trap && !r.halt && !r.comm && !r.hwReset

/-- Strict bucket 1: exactly one trap (no halt/comm/exec, SDC = 0), manual
checks excluded. -/
def bTrapP (r : TRec) : Bool :=
  r.trap && !r.halt && !r.comm && !r.execf && sdc0 r && !r.manual

/-- Strict bucket 2: exactly one halt. -/
def bHaltP (r : TRec) : Bool :=
  r.halt && !r.trap && !r.comm && !r.execf && sdc0 r && !r.manual

/-- Strict bucket 3: exactly one comm failure. -/
def bCommP (r : TRec) : Bool :=
  r.comm && !r.trap && !r.halt && !r.execf && sdc0 r && !r.manual

/-- Strict bucket 4: SDC and nothing else. -/
def bSdcP (r : TRec) : Bool :=
  sdc1 r && !r.trap && !r.halt && !r.comm && !r.execf && !r.manual

/-- Strict bucket 5: exactly one exec failure. -/
def bExecP (r : TRec) : Bool :=
  r.execf && !r.trap && !r.halt && !r.comm && sdc0 r && !r.manual

/-- Query 6, multiple events: the SQL sum
`EXISTS traps + EXISTS halts + EXISTS comm + EXISTS exec + (s.SDC = 1) > 1`;
the whole comparison is NULL (hence false) when SDC is NULL. -/
def bMultiP (r : TRec) : Bool :=
  !r.manual &&
    match r.stat with
    | some (_, s) =>
        decide (1 < (if r.trap then 1 else 0) + (if r.halt then 1 else 0)
          + (if r.comm then 1 else 0) + (if r.execf then 1 else 0)
          + (if s then 1 else 0))
    | none => false

/-- Query 7: failed/outlier with no specific event. -/
def bNoEvP (r : TRec) : Bool :=
  (isClass .failed r || isClass .outlier r) && !r.trap && !r.halt && !r.comm
    && !r.execf && sdc0 r && !r.manual

/-- Query 8: uncategorized (manual check needed). -/
def bUncatP (r : TRec) : Bool := r.manual

def cleanPassed (l : List TRec) : Nat := l.countP cleanPassedP
def totalTests (l : List TRec) : Nat := l.length

/-- `sum_of_categories` from `_print_strict_failures_table`: the five
exactly-one buckets, plus others (= multiple events + no specific event),
plus uncategorized. -/
def sumOfCategories (l : List TRec) : Nat :=
  l.countP bTrapP + l.countP bHaltP + l.countP bCommP + l.countP bSdcP
    + l.countP bExecP + (l.countP bMultiP + l.countP bNoEvP)
    + l.countP bUncatP

/-- `total_failed` from `_print_strict_failures_table`. -/
def totalFailed (l : List TRec) : Nat := totalTests l - cleanPassed l

/-- Side conditions under which the strict-failure partition is exact:
a record with an empty status dict must be flagged for manual check, and a
clean-pass candidate (class passed, SDC = 0, no trap/halt/comm event) must
carry no exec_failure or hw_reset event and not be flagged for manual
check. -/
def c1Hyp (r : TRec) : Bool :=
  (match r.stat with
   | none => r.manual
   | some _ => true) &&
  (if r.stat = some (.passed, false) && !r.trap && !r.halt && !r.comm then
    !r.execf && !r.hwReset && !r.manual
   else true)

lemma c1_pointwise : ∀ r : TRec, c1Hyp r = true →
    ((if bTrapP r then 1 else 0) + (if bHaltP r then 1 else 0)
      + (if bCommP r then 1 else 0) + (if bSdcP r then 1 else 0)
      + (if bExecP r then 1 else 0)
      + ((if bMultiP r then 1 else 0) + (if bNoEvP r then 1 else 0))
      + (if bUncatP r then 1 else 0))
      + (if cleanPassedP r then 1 else 0) = 1 := by
  intro r
  obtain ⟨st, tr, hl, cm, ex, hw, mn⟩ := r
  rcases st with _ | ⟨c, s⟩
  · cases tr <;> cases hl <;> cases cm <;> cases ex <;> cases hw <;> cases mn
      <;> decide
  · cases c <;> cases s <;> cases tr <;> cases hl <;> cases cm <;> cases ex
      <;> cases hw <;> cases mn <;> decide

lemma c1_sum (l : List TRec) (h : ∀ r ∈ l, c1Hyp r = true) :
    sumOfCategories l + cleanPassed l = totalTests l := by
  induction l with
  | nil => rfl
  | cons r l ih =>
    have hr := c1_pointwise r (h r (List.mem_cons_self r l))
    have ihl := ih fun x hx => h x (List.mem_cons_of_mem r hx)
    simp only [sumOfCategories, cleanPassed, totalTests, List.countP_cons,
      List.length_cons] at *
    omega

/-! ### Queries of `print_status_verification_table` (overlap analysis) -/

/-- No row in any of the five event tables. -/
def noEv5 (r : TRec) : Bool :=
  !r.trap && !r.halt && !r.comm && !r.execf && !r.hwReset

/-- `<class>_with_trap` combined query. -/
def cTrap (c : StClass) (r : TRec) : Bool := isClass c r && r.trap

/-- `<class>_halt` combined query. -/
def cHalt (c : StClass) (r : TRec) : Bool := isClass c r && r.halt

/-- `<class>_comm_failure` combined query. -/
def cComm (c : StClass) (r : TRec) : Bool := isClass c r && r.comm

/-- `<class>_SDC` combined query. -/
def cSdc (c : StClass) (r : TRec) : Bool := isClass c r && sdc1 r

/-- `<class>_exec_failure` combined query. -/
def cExec (c : StClass) (r : TRec) : Bool := isClass c r && r.execf

/-- `<class>_hw_reset` combined query. -/
def cHw (c : StClass) (r : TRec) : Bool := isClass c r && r.hwReset

/-- The per-class clean bucket: `clean_pass_query`, `clean_fail_query` and
`clean_outlier_query`.  Note that the failed variant has no SDC condition
in the source. -/
def cleanOf (c : StClass) (r : TRec) : Bool :=
  match c with
  | .passed => isClass .passed r && sdc0 r && noEv5 r
  | .failed => isClass .failed r && noEv5 r
  | .outlier => isClass .outlier r && sdc0 r && noEv5 r

/-- `total_<class>_combined`: sum of the six per-event-kind membership
counts within the class plus the class's clean bucket. -/
def perClassSum (c : StClass) (l : List TRec) : Nat :=
  l.countP (cTrap c) + l.countP (cHalt c) + l.countP (cComm c)
    + l.countP (cSdc c) + l.countP (cExec c) + l.countP (cHw c)
    + l.countP (cleanOf c)

/-- `raw_counts[class]`: total records of the class. -/
def classTotal (c : StClass) (l : List TRec) : Nat := l.countP (isClass c)

/-- `<class>_overlap` query: class members whose SQL indicator sum over
traps/halts/comm_failure/hw_resets/exec_failure/(SDC = 1) exceeds 1. -/
def overlapP (c : StClass) (r : TRec) : Bool :=
  isClass c r &&
    match r.stat with
    | some (_, s) =>
        decide (1 < (if r.trap then 1 else 0) + (if r.halt then 1 else 0)
          + (if r.comm then 1 else 0) + (if r.hwReset then 1 else 0)
          + (if r.execf then 1 else 0) + (if s then 1 else 0))
    | none => false

def overlapCount (c : StClass) (l : List TRec) : Nat := l.countP (overlapP c)

/-- Side conditions under which the per-class overlap diagnostic is exact:
no record carries three or more of the six qualifying conditions, and no
failed-class record has SDC set with no event rows (the failed clean
bucket ignores SDC, so such a record is counted twice). -/
def c2Hyp (r : TRec) : Bool :=
  (match r.stat with
   | some (_, s) =>
       decide ((if r.trap then 1 else 0) + (if r.halt then 1 else 0)
         + (if r.comm then 1 else 0) + (if r.hwReset then 1 else 0)
         + (if r.execf then 1 else 0) + (if s then 1 else 0) ≤ 2)
   | none => true) &&
  !(isClass .failed r && sdc1 r && noEv5 r)

lemma c2_pointwise : ∀ (c : StClass) (r : TRec), c2Hyp r = true →
    (if cTrap c r then 1 else 0) + (if cHalt c r then 1 else 0)
      + (if cComm c r then 1 else 0) + (if cSdc c r then 1 else 0)
      + (if cExec c r then 1 else 0) + (if cHw c r then 1 else 0)
      + (if cleanOf c r then 1 else 0)
      = (if isClass c r then 1 else 0) + (if overlapP c r then 1 else 0) := by
  intro c r
  obtain ⟨st, tr, hl, cm, ex, hw, mn⟩ := r
  rcases st with _ | ⟨c2, s⟩
  · cases c <;> cases tr <;> cases hl <;> cases cm <;> cases ex <;> cases hw
      <;> cases mn <;> decide
  · cases c <;> cases c2 <;> cases s <;> cases tr <;> cases hl <;> cases cm
      <;> cases ex <;> cases hw <;> cases mn <;> decide

lemma c2_sum (c : StClass) (l : List TRec) (h : ∀ r ∈ l, c2Hyp r = true) :
    perClassSum c l = classTotal c l + overlapCount c l := by
  induction l with
  | nil => rfl
  | cons r l ih =>
    have hr := c2_pointwise c r (h r (List.mem_cons_self r l))
    have ihl := ih fun x hx => h x (List.mem_cons_of_mem r hx)
    simp only [perClassSum, classTotal, overlapCount, List.countP_cons] at *
    omega

/-! ## Claim C1 and C2 theorems -/

/-- Claim C1, counterexample: the strict-failure partition identity fails
on a one-record set whose record is clean-passed (class passed, no events,
SDC false) but flagged `needs_manual_check`: it is counted both in
`clean_passed` and in `uncategorized`, so the category sum is 1 while
`total_tests - clean_passed` is 0. -/
theorem C1_counterexample :
    ¬ (sumOfCategories
          [⟨some (.passed, false), false, false, false, false, false, true⟩]
        = totalFailed
          [⟨some (.passed, false), false, false, false, false, false, true⟩]) := by
  decide

/-- Claim C1 (amended): for every reconciled record set in which every
record with an empty status is flagged `needs_manual_check`, and every
clean-pass candidate (class passed, SDC false, no trap/halt/comm_failure
event) carries no exec_failure or hw_reset event and is not flagged
`needs_manual_check`, the sum of the exactly-one-event buckets plus others
plus uncategorized equals `total_tests - clean_passed`. -/
theorem C1_strict_partition (l : List TRec) (h : ∀ r ∈ l, c1Hyp r = true) :
    sumOfCategories l = totalFailed l := by
  have hs := c1_sum l h
  unfold totalFailed totalTests at *
  omega

/-- Witness for `C1_strict_partition` on a concrete two-record set. -/
theorem C1_strict_partition_witness :
    sumOfCategories
        [⟨some (.passed, false), false, false, false, false, false, false⟩,
         ⟨some (.failed, false), true, false, false, false, false, false⟩]
      = totalFailed
        [⟨some (.passed, false), false, false, false, false, false, false⟩,
         ⟨some (.failed, false), true, false, false, false, false, false⟩] :=
  C1_strict_partition _ (by decide)

/-- Claim C2, counterexample: for class failed, a one-record set whose
record has SDC true and no event rows is counted both in the SDC column
and in the clean-fail bucket (which lacks an SDC condition), so the sum of
per-event-kind membership counts minus the class total is 1 while the
record carries only one qualifying condition (overlap count 0). -/
theorem C2_counterexample :
    ¬ (perClassSum .failed
          [⟨some (.failed, true), false, false, false, false, false, false⟩]
        - classTotal .failed
          [⟨some (.failed, true), false, false, false, false, false, false⟩]
        = overlapCount .failed
          [⟨some (.failed, true), false, false, false, false, false, false⟩]) := by
  decide

/-- Claim C2 (amended): for every status class and every reconciled record
set in which no record carries three or more of the six qualifying
conditions (trap, halt, comm_failure, SDC, exec_failure, hw_reset) and no
failed-class record has SDC true with no events, the sum of per-event-kind
membership counts within the class (clean bucket included) minus the class
total equals the number of class records carrying two or more simultaneous
qualifying conditions. -/
theorem C2_overlap_diagnostic (c : StClass) (l : List TRec)
    (h : ∀ r ∈ l, c2Hyp r = true) :
    perClassSum c l - classTotal c l = overlapCount c l := by
  have hs := c2_sum c l h
  omega

/-- Witness for `C2_overlap_diagnostic` on a concrete record carrying two
simultaneous events (trap and halt). -/
theorem C2_overlap_diagnostic_witness :
    perClassSum .failed
        [⟨some (.failed, false), true, true, false, false, false, false⟩]
      - classTotal .failed
        [⟨some (.failed, false), true, true, false, false, false, false⟩]
      = overlapCount .failed
        [⟨some (.failed, false), true, true, false, false, false, false⟩] :=
  C2_overlap_diagnostic _ _ (by decide)

/-! ## Python string primitives

Kernel-evaluable models of the `str` methods the parser uses
(`strip`, `split` with a literal separator, `startswith`, `'\n'.join`). -/

/-- Python `str.strip()`. -/
def pyStrip (s : String) : String :=
  String.mk
    (((s.toList.dropWhile Char.isWhitespace).reverse.dropWhile
      Char.isWhitespace).reverse)

/-- First occurrence of `sep` in `l`: text before it and text after it. -/
def splitFirst (sep : List Char) : List Char → List Char →
    Option (List Char × List Char)
  | [], _ => none
  | c :: rest, acc =>
    if sep.isPrefixOf (c :: rest) then
      some (acc.reverse, (c :: rest).drop sep.length)
    else
      splitFirst sep rest (c :: acc)

/-- Fuelled splitter (each round consumes at least one character when the
separator is nonempty, so `l.length` fuel is always enough). -/
def splitOnAux (sep : List Char) : Nat → List Char → List (List Char)
  | 0, l => [l]
  | fuel + 1, l =>
    match splitFirst sep l [] with
    | none => [l]
    | some (before, after) => before :: splitOnAux sep fuel after

/-- Python `s.split(sep)` for a nonempty literal separator. -/
def pySplit (sep s : String) : List String :=
  (splitOnAux sep.toList s.toList.length s.toList).map String.mk

/-- Python `s.startswith(pre)`. -/
def pyStartsWith (s pre : String) : Bool :=
  pre.toList.isPrefixOf s.toList

/-- Python `sep.join(parts)`. -/
def pyJoin (sep : String) : List String → String
  | [] => ""
  | [x] => x
  | x :: y :: xs => x ++ sep ++ pyJoin sep (y :: xs)

/-! ## Classifier capability set and status builder (`parser.py`) -/

/-- A benchmark classifier: the capability set of
`BenchmarkClassifierInterface`, as a record of total functions. -/
structure Classifier where
  name : String
  get_trap : String → Option Int
  get_trap_address : String → Option String
  get_trap_val : String → Option String
  get_halt : String → Bool
  get_comm_failure : String → Bool
  get_exec_failure : String → Bool
  get_hw_reset : String → Bool
  get_sdc : String → Bool
  get_result : String → Int

/-- An event dict appended by `_build_status_dict`. -/
inductive Event where
  | trap (scause : Int) (sepc : Option String) (stval : Option String)
  | halt
  | comm_failure
  | exec_failure
  | hw_reset
deriving DecidableEq, Repr

/-- The literal string stored under the `type` key of each event dict
(`_build_status_dict` writes `"hw-reset"`, with a hyphen). -/
def Event.typeTag : Event → String
  | .trap _ _ _ => "trap"
  | .halt => "halt"
  | .comm_failure => "comm_failure"
  | .exec_failure => "exec_failure"
  | .hw_reset => "hw-reset"

/-- Python truthiness of an optional string, as used by
`if trap_addr:` — both `None` and the empty string are falsy. -/
def pyTruthy : Option String → Option String
  | some s => if s = "" then none else some s
  | none => none

/-- The status dict produced by `_build_status_dict`. -/
structure Status where
  cls : String
  SDC : Bool
  events : List Event
deriving DecidableEq, Repr

/-- `ResultsParser._build_status_dict`. -/
def build_status_dict (c : Classifier) (output : String) : Status :=
  let trapEvents : List Event :=
    match c.get_trap output with
    | some tv =>
        [Event.trap tv (pyTruthy (c.get_trap_address output))
          (pyTruthy (c.get_trap_val output))]
    | none => []
  let events := trapEvents
    ++ (if c.get_halt output then [Event.halt] else [])
    ++ (if c.get_comm_failure output then [Event.comm_failure] else [])
    ++ (if c.get_exec_failure output then [Event.exec_failure] else [])
    ++ (if c.get_hw_reset output then [Event.hw_reset] else [])
  let class_str :=
    if c.get_result output = 0 then "passed"
    else if c.get_result output = 1 then "failed" else "outlier"
  ⟨class_str, c.get_sdc output, events⟩

/-! ## Tokenizer and reconciliation (`parse_output_file`) -/

/-- The value of a record's `status` key: either a status dict built by
`_build_status_dict`, or the literal empty dict synthesized for missing
entries. -/
inductive StatusVal where
  | full (s : Status)
  | empty
deriving DecidableEq, Repr

/-- A per-test record as it sits in `test_results` before the defaulting
loop; `none` models an absent key. -/
structure RawRec where
  args : Option String
  output : Option String
  status : Option StatusVal
deriving DecidableEq, Repr

/-- A reconciled record after the defaulting loop. -/
structure FinalRec where
  args : String
  output : String
  status : StatusVal
  needs_manual_check : Bool
deriving DecidableEq, Repr

/-- The defaulting loop body of `parse_output_file` (lines 286-306):
fill absent required fields with the documented defaults, flagging the
record, and flag it independently when its output is falsy. -/
def finalize (r : RawRec) : FinalRec :=
  let flagged := r.args.isNone || r.output.isNone || r.status.isNone
  let args := r.args.getD ""
  let output := r.output.getD "Missing output data"
  let status := r.status.getD .empty
  ⟨args, output, status, flagged || output == ""⟩

/-- Python `key in dict`. -/
def hasKey (k : String) (m : List (String × α)) : Bool :=
  m.any fun p => p.1 == k

/-- Python `dict.get(key)` / `dict[key]` (ordered-dict model: first match;
keys are unique in an actual dict). -/
def getVal (k : String) (m : List (String × α)) : Option α :=
  (m.find? fun p => p.1 == k).map Prod.snd

/-- Python `dict[key] = value`: replace in place, or append a new key. -/
def dictInsert (m : List (String × α)) (k : String) (v : α) :
    List (String × α) :=
  if hasKey k m then m.map fun p => if p.1 == k then (p.1, v) else p
  else m ++ [(k, v)]

/-- The record synthesized for an expected id absent from the log. -/
def synthMissing : RawRec := ⟨some "", some "", some .empty⟩

/-- `test_results` after the missing-entry loop: parsed records followed by
a synthesized record per expected id not already present. -/
def withMissing (expected : List String) (parsed : List (String × RawRec)) :
    List (String × RawRec) :=
  parsed ++ (expected.filter fun k => !hasKey k parsed).map
    fun k => (k, synthMissing)

/-- Reconciliation: gap filling followed by the defaulting loop. -/
def reconcile (expected : List String) (parsed : List (String × RawRec)) :
    List (String × FinalRec) :=
  (withMissing expected parsed).map fun p => (p.1, finalize p.2)

/-- Tokenizer configuration: the externally supplied patterns, embedded as
opaque matcher functions (`benchMatch` models searching
`BENCHMARK_PATTERN` and lowercasing group 1; `testNumMatch` models
searching `TEST_NUMBER_PATTERN`, yielding group 1 and optional group 2;
`nameFormat` models `TEST_NAME_FORMAT.format`). -/
structure TokConfig where
  benchMatch : String → Option String
  testNumMatch : String → Option (String × Option String)
  nameFormat : String → String → String

/-- The registry scan `for name, cls in self.classifiers.items()` with
`if name == actual_benchmark_type`. -/
def regLookup (n : String) (reg : List (String × Classifier)) :
    Option Classifier :=
  (reg.find? fun p => p.1 == n).map Prod.snd

/-- The classifier-switch step applied to a block's first line
(lines 229-241 of `parser.py`); the state is the pair of the active
benchmark-type name and the active classifier. -/
def stepClassifier (reg : List (String × Classifier)) (cfg : TokConfig)
    (st : String × Classifier) (firstLine : String) : String × Classifier :=
  match cfg.benchMatch firstLine with
  | none => st
  | some actual =>
    if actual = st.1 then st
    else
      match regLookup actual reg with
      | some c => (actual, c)
      | none => st

/-- `ResultsParser.clean_test_number`. -/
def clean_test_number (s : String) : String :=
  String.mk (s.toList.filter Char.isDigit)

/-- The output-collection loop: lines up to the next marker, stripped,
empties skipped. -/
def collectOutputLines (marker : String) : List String → List String
  | [] => []
  | l :: ls =>
    if pyStartsWith l marker then []
    else if pyStrip l == "" then collectOutputLines marker ls
    else pyStrip l :: collectOutputLines marker ls

/-- `args.strip() if args else ""` applied to group 2 of the test-number
match (absent or empty group yields the empty string). -/
def pyArgsStr : Option String → String
  | some s => if s == "" then "" else pyStrip s
  | none => ""

/-- Processing of one raw block of the log (the body of the
`for block in test_blocks[1:]` loop): possibly switch the classifier,
extract the test number, and record the result. -/
def processBlock (reg : List (String × Classifier)) (cfg : TokConfig)
    (marker : String) (st : String × Classifier)
    (m : List (String × RawRec)) (block : String) :
    (String × Classifier) × List (String × RawRec) :=
  match pySplit "\n" (pyStrip block) with
  | [] => (st, m)
  | firstLine :: rest =>
    let fl := pyStrip firstLine
    let st2 := stepClassifier reg cfg st fl
    match cfg.testNumMatch fl with
    | none => (st2, m)
    | some (numRaw, argsOpt) =>
      let test_name := cfg.nameFormat st2.1 (clean_test_number numRaw)
      let full_output := pyJoin "\n" (collectOutputLines marker rest)
      let status := build_status_dict st2.2 full_output
      (st2, dictInsert m test_name
        ⟨some (pyArgsStr argsOpt), some full_output, some (.full status)⟩)

/-- The block loop, threading the active-classifier state. -/
def processBlocks (reg : List (String × Classifier)) (cfg : TokConfig)
    (marker : String) : (String × Classifier) → List (String × RawRec) →
    List String → (String × Classifier) × List (String × RawRec)
  | st, m, [] => (st, m)
  | st, m, b :: bs =>
    let r := processBlock reg cfg marker st m b
    processBlocks reg cfg marker r.1 r.2 bs

/-- `content.split('\n' + marker)[1:]`. -/
def splitBlocks (marker content : String) : List String :=
  (pySplit ("\n" ++ marker) content).drop 1

/-- `parse_output_file` after classifier selection and file reading:
tokenize the log content and reconcile against the expected-id set
(`st0` is the classifier selected from the filename, `expected` the key
list of the specification file). -/
def parse_output_file (reg : List (String × Classifier)) (cfg : TokConfig)
    (marker : String) (st0 : String × Classifier) (expected : List String)
    (content : String) : List (String × FinalRec) :=
  reconcile expected
    (processBlocks reg cfg marker st0 [] (splitBlocks marker content)).2

/-! ## Result-file writer (`update_json_file`) -/

/-- Python `base.update(upd)` on dicts: keys of `base` keep their position
with overridden values, new keys of `upd` are appended. -/
def dictUpdate (base upd : List (String × α)) : List (String × α) :=
  (base.map fun p =>
    (p.1,
      match getVal p.1 upd with
      | some v => v
      | none => p.2))
  ++ upd.filter fun q => !hasKey q.1 base

/-- `ResultsParser.update_json_file`: one output record per specification
key, the specification record overlaid with the reconciled record when one
exists. -/
def update_json_file (data resultsMap : List (String × List (String × α))) :
    List (String × List (String × α)) :=
  data.map fun p =>
    (p.1,
      match getVal p.1 resultsMap with
      | some r => dictUpdate p.2 r
      | none => p.2)

/-! ## Dictionary and counting lemmas -/

lemma countP_add_countP_neg (p : α → Bool) (l : List α) :
    l.countP p + l.countP (fun a => !p a) = l.length := by
  induction l with
  | nil => rfl
  | cons a l ih =>
    simp only [List.countP_cons, List.length_cons]
    cases h : p a <;> simp [h] <;> omega

lemma hasKey_false_iff (k : String) (m : List (String × α)) :
    hasKey k m = false ↔ getVal k m = none := by
  induction m with
  | nil => simp [hasKey, getVal]
  | cons p m ih =>
    cases h : p.1 == k
    · simpa [hasKey, getVal, List.find?_cons, h] using ih
    · simp [hasKey, getVal, List.find?_cons, h]

lemma getVal_append (k : String) (l1 l2 : List (String × α)) :
    getVal k (l1 ++ l2) = (getVal k l1).or (getVal k l2) := by
  simp only [getVal, List.find?_append]
  cases List.find? (fun p => p.1 == k) l1 <;> simp

lemma getVal_map_keyed (g : String → β → γ) (k : String)
    (m : List (String × β)) :
    getVal k (m.map fun p => (p.1, g p.1 p.2))
      = (getVal k m).map fun v => g k v := by
  induction m with
  | nil => rfl
  | cons p m ih =>
    cases h : p.1 == k
    · simpa [getVal, List.find?_cons, h] using ih
    · have hk : p.1 = k := by simpa using h
      simp [getVal, List.find?_cons, h, hk]

lemma hasKey_map_keyed (g : String → β → γ) (k : String)
    (m : List (String × β)) :
    hasKey k (m.map fun p => (p.1, g p.1 p.2)) = hasKey k m := by
  induction m with
  | nil => rfl
  | cons p m ih => simp [hasKey] at ih ⊢; rw [ih]

lemma getVal_filter_none (k : String) (q : String × α → Bool)
    (m : List (String × α)) (h : getVal k m = none) :
    getVal k (m.filter q) = none := by
  induction m with
  | nil => rfl
  | cons p m ih =>
    have hpk : (p.1 == k) = false := by
      cases hpk2 : p.1 == k
      · rfl
      · exfalso
        simp only [getVal, List.find?_cons, hpk2] at h
        exact Option.some_ne_none _ h
    have hm : getVal k m = none := by
      simp only [getVal, List.find?_cons, hpk] at h
      exact h
    cases hqp : q p
    · rw [List.filter_cons, hqp, if_neg (by simp)]
      exact ih hm
    · rw [List.filter_cons, hqp, if_pos rfl]
      simp only [getVal, List.find?_cons, hpk]
      exact ih hm

lemma getVal_filter_keyed (k : String) (q : String × α → Bool)
    (m : List (String × α)) (hq : ∀ p : String × α, p.1 = k → q p = true) :
    getVal k (m.filter q) = getVal k m := by
  induction m with
  | nil => rfl
  | cons p m ih =>
    cases hpk : p.1 == k
    · cases hqp : q p
      · rw [List.filter_cons, hqp, if_neg (by simp)]
        rw [show getVal k (p :: m) = getVal k m from by
          simp only [getVal, List.find?_cons, hpk]]
        exact ih
      · rw [List.filter_cons, hqp, if_pos rfl]
        simp only [getVal, List.find?_cons, hpk]
        exact ih
    · have hq2 : q p = true := hq p (by simpa using hpk)
      rw [List.filter_cons, hq2, if_pos rfl]
      simp only [getVal, List.find?_cons, hpk]

lemma getVal_const_map (k : String) (l : List String) (v : α) (h : k ∈ l) :
    getVal k (l.map fun k2 => (k2, v)) = some v := by
  induction l with
  | nil => cases h
  | cons a l ih =>
    cases hak : a == k
    · rcases List.mem_cons.mp h with rfl | h2
      · simp at hak
      · simpa [getVal, List.find?_cons, hak] using ih h2
    · simp [getVal, List.find?_cons, hak]

lemma pyTruthy_eq_none_iff (o : Option String) :
    pyTruthy o = none ↔ o = none ∨ o = some "" := by
  cases o with
  | none => simp [pyTruthy]
  | some s =>
    by_cases h : s = "" <;> simp [pyTruthy, h]

lemma pyTruthy_some_of_ne (s : String) (h : s ≠ "") :
    pyTruthy (some s) = some s := by
  simp [pyTruthy, h]

/-! ## Concrete fixtures for witnesses and counterexamples -/

/-- A classifier recognizing nothing. -/
def dummyClassifier (n : String) : Classifier :=
  ⟨n, fun _ => none, fun _ => none, fun _ => none, fun _ => false,
   fun _ => false, fun _ => false, fun _ => false, fun _ => false,
   fun _ => 0⟩

/-- A classifier recognizing a trap and all four boolean events. -/
def allEventsClassifier : Classifier :=
  ⟨"demo", fun _ => some 2, fun _ => some "0x80000e4", fun _ => some "0x42",
   fun _ => true, fun _ => true, fun _ => true, fun _ => true,
   fun _ => false, fun _ => 1⟩

/-- A classifier whose trap-address accessor returns the empty string. -/
def emptyAddrClassifier : Classifier :=
  ⟨"demo2", fun _ => some 2, fun _ => some "", fun _ => some "0x5",
   fun _ => false, fun _ => false, fun _ => false, fun _ => false,
   fun _ => false, fun _ => 0⟩

/-- A tokenizer configuration whose test-number matcher recognizes the
first lines produced by splitting on the demo marker. -/
def demoCfg : TokConfig :=
  ⟨fun _ => none,
   fun s =>
     if s = "_1" then some ("1", none)
     else if s = "_2" then some ("2", none) else none,
   fun b n => b ++ "_" ++ n⟩

/-- A tokenizer configuration whose benchmark matcher recognizes one
line. -/
def switchCfg : TokConfig :=
  ⟨fun s => if s = "npb_1" then some "npb" else none,
   fun _ => none,
   fun b n => b ++ "_" ++ n⟩

lemma hasKey_iff_mem_keys (k : String) (P : List (String × α)) :
    hasKey k P = true ↔ k ∈ P.map Prod.fst := by
  simp only [hasKey, List.any_eq_true, List.mem_map, beq_iff_eq]

/-! ## Claim C3 -/

/-- Claim C3, counterexample: on a log whose blocks yield a test name not
in the expected-id set, `parse_output_file` keeps the extra parsed record,
so the reconciled record set has more records than the expected-id set
(here 2 vs 1). -/
theorem C3_counterexample :
    ¬ ((parse_output_file [] demoCfg "Starting test"
          ("bench", dummyClassifier "bench") ["bench_1"]
          "preamble\nStarting test_1\nSUCCESS\nStarting test_2\nFAIL").length
        = (["bench_1"] : List String).length) := by
  decide

/-- Claim C3 (amended): the reconciled record set has one record per name
in the union of the parsed-name set and the expected-id set; its size
equals the size of the expected-id set exactly when every parsed test name
is an expected id (keys on both sides being unique, as they are for
Python dicts). -/
theorem C3_reconciled_size (E : List String) (P : List (String × RawRec))
    (hE : E.Nodup) (hP : (P.map Prod.fst).Nodup)
    (hsub : ∀ k ∈ P.map Prod.fst, k ∈ E) :
    (reconcile E P).length = E.length := by
  have hlen : (reconcile E P).length
      = P.length + (E.filter fun k => !hasKey k P).length := by
    simp [reconcile, withMissing]
  have hperm : (E.filter fun k => hasKey k P).Perm (P.map Prod.fst) := by
    apply List.perm_of_nodup_nodup_toFinset_eq (hE.filter _) hP
    ext a
    simp only [List.mem_toFinset, List.mem_filter]
    constructor
    · rintro ⟨_, hk⟩
      exact (hasKey_iff_mem_keys a P).mp hk
    · intro hk
      exact ⟨hsub a hk, (hasKey_iff_mem_keys a P).mpr hk⟩
  have h1 : (E.filter fun k => hasKey k P).length = P.length := by
    simpa using hperm.length_eq
  have h2 : (E.filter fun k => hasKey k P).length
      + (E.filter fun k => !hasKey k P).length = E.length := by
    have hc := countP_add_countP_neg (fun k => hasKey k P) E
    simpa [List.countP_eq_length_filter] using hc
  omega

/-- Witness for `C3_reconciled_size`: parsed names contained in the
expected-id set. -/
theorem C3_reconciled_size_witness :
    (reconcile ["bench_1", "bench_2"] [("bench_1", synthMissing)]).length
      = (["bench_1", "bench_2"] : List String).length :=
  C3_reconciled_size _ _ (by decide) (by decide) (by decide)

/-! ## Claims C4 and C5 -/

/-- Claim C4: `_build_status_dict` appends at most one event per kind in
the fixed order trap, halt, comm_failure, exec_failure, hw-reset, but the
hw-reset event's type tag is the literal `"hw-reset"` (with a hyphen), not
the data-model kind name `"hw_reset"` that `sql_converter.py` matches, so
the event is silently dropped at database import. -/
theorem C4_event_tags :
    (build_status_dict allEventsClassifier "x").events.map Event.typeTag
        = ["trap", "halt", "comm_failure", "exec_failure", "hw-reset"]
      ∧ ("hw-reset" : String) ≠ "hw_reset" := by
  exact ⟨rfl, by decide⟩

/-- Claim C5, counterexample: when `get_trap_address` returns a value that
is the empty string, the built trap event's `sepc` is null even though the
accessor did return a value (`if trap_addr:` tests Python truthiness, not
presence), contradicting "null exactly when the accessor returns no
value". -/
theorem C5_counterexample :
    emptyAddrClassifier.get_trap_address "t" = some ""
      ∧ (build_status_dict emptyAddrClassifier "t").events
          = [Event.trap 2 none (some "0x5")] := by
  exact ⟨rfl, by decide⟩

/-- Claim C5 (amended): when `get_trap` returns a value, the produced trap
event always carries all three sub-fields, with `scause` the returned
value, and `sepc`/`stval` populated from `get_trap_address`/`get_trap_val`
through Python truthiness: a sub-field is null exactly when its accessor
returns no value or an empty string. -/
theorem C5_trap_subfields (c : Classifier) (out : String) (tv : Int)
    (h : c.get_trap out = some tv) :
    ∃ rest,
      (build_status_dict c out).events
          = Event.trap tv (pyTruthy (c.get_trap_address out))
              (pyTruthy (c.get_trap_val out)) :: rest
        ∧ (pyTruthy (c.get_trap_address out) = none
            ↔ (c.get_trap_address out = none
              ∨ c.get_trap_address out = some ""))
        ∧ (pyTruthy (c.get_trap_val out) = none
            ↔ (c.get_trap_val out = none
              ∨ c.get_trap_val out = some "")) := by
  have hev : ∃ rest, (build_status_dict c out).events
      = Event.trap tv (pyTruthy (c.get_trap_address out))
          (pyTruthy (c.get_trap_val out)) :: rest := by
    refine ⟨(if c.get_halt out then [Event.halt] else [])
      ++ ((if c.get_comm_failure out then [Event.comm_failure] else [])
      ++ ((if c.get_exec_failure out then [Event.exec_failure] else [])
      ++ (if c.get_hw_reset out then [Event.hw_reset] else []))), ?_⟩
    simp [build_status_dict, h, List.append_assoc]
  obtain ⟨rest, hrest⟩ := hev
  exact ⟨rest, hrest, pyTruthy_eq_none_iff _, pyTruthy_eq_none_iff _⟩

/-- Witness for `C5_trap_subfields` on a classifier returning a trap. -/
theorem C5_trap_subfields_witness :
    ∃ rest,
      (build_status_dict allEventsClassifier "x").events
          = Event.trap 2 (pyTruthy (allEventsClassifier.get_trap_address "x"))
              (pyTruthy (allEventsClassifier.get_trap_val "x")) :: rest
        ∧ (pyTruthy (allEventsClassifier.get_trap_address "x") = none
            ↔ (allEventsClassifier.get_trap_address "x" = none
              ∨ allEventsClassifier.get_trap_address "x" = some ""))
        ∧ (pyTruthy (allEventsClassifier.get_trap_val "x") = none
            ↔ (allEventsClassifier.get_trap_val "x" = none
              ∨ allEventsClassifier.get_trap_val "x" = some "")) :=
  C5_trap_subfields allEventsClassifier "x" 2 rfl

/-! ## Claims C6 to C9 -/

/-- Claim C6: every reconciled record whose source record was missing a
required field (args, output or status) or whose output is empty or absent
carries `needs_manual_check = true`. -/
theorem C6_manual_flag (E : List String) (P : List (String × RawRec))
    (p : String × RawRec) (hmem : p ∈ withMissing E P)
    (hbad : p.2.args = none ∨ p.2.output = none ∨ p.2.status = none
      ∨ p.2.output = some "") :
    ∃ q ∈ reconcile E P, q.1 = p.1 ∧ q.2 = finalize p.2
      ∧ q.2.needs_manual_check = true := by
  refine ⟨(p.1, finalize p.2), ?_, rfl, rfl, ?_⟩
  · show (p.1, finalize p.2) ∈ (withMissing E P).map fun p => (p.1, finalize p.2)
    exact List.mem_map_of_mem _ hmem
  · rcases p with ⟨k, a, o, s⟩
    rcases hbad with h | h | h | h <;> simp_all [finalize]

/-- Witness for `C6_manual_flag` on the synthesized record of a missing
expected id (empty output). -/
theorem C6_manual_flag_witness :
    ∃ q ∈ reconcile ["a"] [], q.1 = "a" ∧ q.2 = finalize synthMissing
      ∧ q.2.needs_manual_check = true :=
  C6_manual_flag ["a"] [] ("a", synthMissing) (by decide) (by decide)

/-- Claim C7: the active classifier changes exactly when the benchmark
pattern yields the name of a registered classifier different from the
active one; a failed match, the same name, or an unregistered name all
retain the previous classifier, and the block loop threads the switched
state into the current block's processing and onward. -/
theorem C7_classifier_switch (reg : List (String × Classifier))
    (cfg : TokConfig) (st : String × Classifier) (line : String) :
    (∀ n c, cfg.benchMatch line = some n → n ≠ st.1 →
      regLookup n reg = some c → stepClassifier reg cfg st line = (n, c))
    ∧ (cfg.benchMatch line = none → stepClassifier reg cfg st line = st)
    ∧ (∀ n, cfg.benchMatch line = some n → n = st.1 →
        stepClassifier reg cfg st line = st)
    ∧ (∀ n, cfg.benchMatch line = some n → regLookup n reg = none →
        stepClassifier reg cfg st line = st)
    ∧ (∀ marker m b fl rest, pySplit "\n" (pyStrip b) = fl :: rest →
        (processBlock reg cfg marker st m b).1
          = stepClassifier reg cfg st (pyStrip fl)) := by
  refine ⟨?_, ?_, ?_, ?_, ?_⟩
  · intro n c h1 h2 h3
    simp [stepClassifier, h1, h2, h3]
  · intro h1
    simp [stepClassifier, h1]
  · intro n h1 h2
    simp [stepClassifier, h1, h2]
  · intro n h1 h2
    simp [stepClassifier, h1, h2]
  · intro marker m b fl rest h1
    simp only [processBlock, h1]
    cases h2 : cfg.testNumMatch (pyStrip fl) with
    | none => rfl
    | some v =>
      obtain ⟨nr, ao⟩ := v
      rfl

/-- Witness for `C7_classifier_switch`: a registered, different benchmark
name switches the active classifier. -/
theorem C7_classifier_switch_witness :
    stepClassifier [("npb", dummyClassifier "npb")] switchCfg
        ("coremark", dummyClassifier "coremark") "npb_1"
      = ("npb", dummyClassifier "npb") :=
  (C7_classifier_switch _ _ _ _).1 "npb" (dummyClassifier "npb") rfl
    (by decide) rfl

lemma getVal_map_finalize (k : String) (P : List (String × RawRec)) :
    getVal k (P.map fun p => (p.1, finalize p.2))
      = (getVal k P).map finalize :=
  getVal_map_keyed (fun _ v => finalize v) k P

/-- Claim C8: an expected id absent from the parsed output gets a
synthesized record whose reconciled form has empty args, empty output, the
empty status, and `needs_manual_check = true`. -/
theorem C8_missing_entry (E : List String) (P : List (String × RawRec))
    (k : String) (hE : k ∈ E) (hP : hasKey k P = false) :
    getVal k (reconcile E P) = some ⟨"", "", .empty, true⟩ := by
  have hrw : reconcile E P
      = (P.map fun p => (p.1, finalize p.2))
        ++ ((E.filter fun k2 => !hasKey k2 P).map
            fun k2 => (k2, finalize synthMissing)) := by
    simp [reconcile, withMissing, List.map_map, Function.comp]
  have h2 : getVal k ((E.filter fun k2 => !hasKey k2 P).map
      fun k2 => (k2, finalize synthMissing)) = some (finalize synthMissing) :=
    getVal_const_map k _ _ (List.mem_filter.mpr ⟨hE, by rw [hP]; rfl⟩)
  rw [hrw, getVal_append, getVal_map_finalize, (hasKey_false_iff k P).mp hP,
    h2]
  rfl

/-- Witness for `C8_missing_entry` at the spec's own scenario id. -/
theorem C8_missing_entry_witness :
    getVal "T42" (reconcile ["T42"] []) = some ⟨"", "", .empty, true⟩ :=
  C8_missing_entry ["T42"] [] "T42" (by decide) rfl

/-- Claim C9: a block whose first line fails the test-number pattern
contributes nothing to the output mapping (the classifier-switch step may
still run, but no record is created and no error is raised). -/
theorem C9_unmatched_block (reg : List (String × Classifier))
    (cfg : TokConfig) (marker : String) (st : String × Classifier)
    (m : List (String × RawRec)) (b : String)
    (h : ∀ fl, (pySplit "\n" (pyStrip b)).head? = some fl →
      cfg.testNumMatch (pyStrip fl) = none) :
    (processBlock reg cfg marker st m b).2 = m := by
  cases hsp : pySplit "\n" (pyStrip b) with
  | nil => simp [processBlock, hsp]
  | cons fl rest =>
    have h2 := h fl (by rw [hsp]; rfl)
    simp [processBlock, hsp, h2]

/-- Witness for `C9_unmatched_block` on a block whose first line the demo
pattern does not match. -/
theorem C9_unmatched_block_witness :
    (processBlock [] demoCfg "Starting test"
        ("bench", dummyClassifier "bench") [] "garbage\nstuff").2 = [] :=
  C9_unmatched_block _ _ _ _ _ _ (by
    intro fl hfl
    have h2 : some "garbage" = some fl := hfl
    injection h2 with h3
    rw [← h3]
    rfl)

/-! ## Claim C10 -/

lemma getVal_map_upd (k : String) (upd base : List (String × α)) :
    getVal k (base.map fun p =>
      (p.1,
        match getVal p.1 upd with
        | some v => v
        | none => p.2))
      = (getVal k base).map fun val =>
          match getVal k upd with
          | some v => v
          | none => val :=
  getVal_map_keyed (fun k2 val =>
    match getVal k2 upd with
    | some v => v
    | none => val) k base

lemma getVal_dictUpdate_not_mem (v r : List (String × α)) (f : String)
    (h : hasKey f r = false) :
    getVal f (dictUpdate v r) = getVal f v := by
  unfold dictUpdate
  rw [getVal_append]
  have hr : getVal f r = none := (hasKey_false_iff f r).mp h
  rw [getVal_map_upd f r v]
  rw [hr, getVal_filter_none f _ r hr]
  cases getVal f v <;> rfl

lemma getVal_dictUpdate_mem (v r : List (String × α)) (f : String) (w : α)
    (h : getVal f r = some w) :
    getVal f (dictUpdate v r) = some w := by
  unfold dictUpdate
  rw [getVal_append]
  rw [getVal_map_upd f r v]
  rw [h]
  cases hv : getVal f v with
  | some val => rfl
  | none =>
    have hfk : hasKey f v = false := (hasKey_false_iff f v).mpr hv
    have hfil : getVal f (r.filter fun q => !hasKey q.1 v) = getVal f r :=
      getVal_filter_keyed f _ r (by
        intro p hp
        rw [hp, hfk]
        rfl)
    rw [hfil, h]
    rfl

/-- Claim C10: the result file written by `update_json_file` has exactly
the specification's key set (reconciled records with unknown keys are
silently omitted), and each output record is the specification record
overlaid with the reconciled record: untouched specification fields (such
as bit_position) keep their values, overlaid fields take the reconciled
values. -/
theorem C10_result_file (data resultsMap : List (String × List (String × α))) :
    ((update_json_file data resultsMap).map Prod.fst = data.map Prod.fst)
    ∧ (∀ k, hasKey k data = false →
        getVal k (update_json_file data resultsMap) = none)
    ∧ (∀ k v r, getVal k data = some v → getVal k resultsMap = some r →
        getVal k (update_json_file data resultsMap) = some (dictUpdate v r))
    ∧ (∀ k v, getVal k data = some v → getVal k resultsMap = none →
        getVal k (update_json_file data resultsMap) = some v)
    ∧ (∀ (v r : List (String × α)) f, hasKey f r = false →
        getVal f (dictUpdate v r) = getVal f v)
    ∧ (∀ (v r : List (String × α)) f w, getVal f r = some w →
        getVal f (dictUpdate v r) = some w) := by
  have hm : ∀ k, getVal k (update_json_file data resultsMap)
      = (getVal k data).map fun v =>
          match getVal k resultsMap with
          | some r => dictUpdate v r
          | none => v := by
    intro k
    exact getVal_map_keyed
      (fun k2 (v : List (String × α)) =>
        match getVal k2 resultsMap with
        | some r => dictUpdate v r
        | none => v) k data
  refine ⟨?_, ?_, ?_, ?_, ?_, ?_⟩
  · simp [update_json_file, List.map_map, Function.comp]
  · intro k hk
    rw [hm k, (hasKey_false_iff k data).mp hk]
    rfl
  · intro k v r h1 h2
    rw [hm k, h1, h2]
    rfl
  · intro k v h1 h2
    rw [hm k, h1, h2]
    rfl
  · exact fun v r f h => getVal_dictUpdate_not_mem v r f h
  · exact fun v r f w h => getVal_dictUpdate_mem v r f w h

/-- Witness for `C10_result_file`: a specification key with a reconciled
record gets the overlaid record. -/
theorem C10_result_file_witness :
    getVal "T1" (update_json_file
        [("T1", [("bit_position", "5")])]
        [("T1", [("args", "a")]), ("T9", [("args", "b")])])
      = some (dictUpdate [("bit_position", "5")] [("args", "a")]) :=
  (C10_result_file _ _).2.2.1 "T1" _ _ rfl rfl

end Rapid
